import Mathlib

/-!
Shallow embedding of the Coffee-to-GO caffeine tracker core
(`caffeine_tracker.go` and its forecast-bearing variant).

Modelling conventions:
* Go `float64` values (dose amounts, caffeine levels) are modelled as real
  numbers, so the decay law `C0 * 0.5 ^ (elapsedHours / 5)` is exact.
* A `time.Time` is modelled as a real number of hours since a local-midnight
  epoch; `t2.Sub(t1).Hours()` becomes `t2 - t1`, and thirty minutes is `1/2`.
* Go's `Format "15:04"` (the hour-and-minute-of-day string used by the
  forecast's drink matching) is modelled as the minute-of-day
  `⌊t * 60⌋ % 1440`.
* The `Tracker`'s event slice is a `List CoffeeIntakeEvent` in insertion
  order; each method becomes a pure function of that list (and of `now`,
  which the Go code reads from the wall clock).
-/

/-- One logged intake: `CoffeeIntakeEvent` from the source
(`Time time.Time`, `Amount float64`). `time` is in hours. -/
structure CoffeeIntakeEvent where
  time : ℝ
  amount : ℝ

/-- One sample of the 24-hour forecast: `ForecastPoint` from the source. -/
structure ForecastPoint where
  time : ℝ
  caffeine : ℝ
  hasDrink : Bool
  drinkAmount : ℝ

/-- The residual contribution of a single event at query time `targetTime`:
the body of the loop in `CalculateCaffeineLevelAt` (the `continue` branch
for a future event contributes nothing). -/
noncomputable def eventContribution (targetTime : ℝ) (event : CoffeeIntakeEvent) : ℝ :=
  let timeElapsedHours := targetTime - event.time
  if timeElapsedHours < 0 then 0
  else event.amount * (0.5 : ℝ) ^ (timeElapsedHours / 5)

/-- `(t *Tracker) CalculateCaffeineLevelAt(targetTime time.Time) float64`:
early return `0` on an empty event list, then the accumulation loop with
`continue` on events still in the future. -/
noncomputable def calculateCaffeineLevelAt
    (events : List CoffeeIntakeEvent) (targetTime : ℝ) : ℝ :=
  if events.isEmpty then 0
  else
    events.foldl
      (fun totalCaffeine event =>
        let timeElapsedHours := targetTime - event.time
        if timeElapsedHours < 0 then totalCaffeine
        else totalCaffeine + event.amount * (0.5 : ℝ) ^ (timeElapsedHours / 5))
      0

/-- `(t *Tracker) CalculateCurrentCaffeineLevel() float64` from
`caffeine_tracker.go`: identical loop with `now := time.Now()` taken as an
explicit argument. -/
noncomputable def calculateCurrentCaffeineLevel
    (events : List CoffeeIntakeEvent) (now : ℝ) : ℝ :=
  if events.isEmpty then 0
  else
    events.foldl
      (fun totalCaffeine event =>
        let timeElapsedHours := now - event.time
        if timeElapsedHours < 0 then totalCaffeine
        else totalCaffeine + event.amount * (0.5 : ℝ) ^ (timeElapsedHours / 5))
      0

/-- `(t *Tracker) AddDrink(amount float64)`: appends one event carrying the
current time and the given amount. -/
noncomputable def addDrink
    (events : List CoffeeIntakeEvent) (now amount : ℝ) : List CoffeeIntakeEvent :=
  events ++ [{ time := now, amount := amount }]

/-- Go's `t.Format "15:04"` as a comparable value: the minute of the day. -/
noncomputable def formatHM (t : ℝ) : ℤ :=
  ⌊t * 60⌋ % 1440

/-- The forecast's inner drink-matching loop: scan the events in order and
break at the first whose `Format "15:04"` equals the target's, defaulting to
`(false, 0)`. -/
noncomputable def findDrinkAt
    (events : List CoffeeIntakeEvent) (targetTime : ℝ) : Bool × ℝ :=
  match events with
  | [] => (false, 0)
  | event :: rest =>
      if formatHM event.time = formatHM targetTime then (true, event.amount)
      else findDrinkAt rest targetTime

/-- `(t *Tracker) GenerateForecast() []ForecastPoint`: 48 samples, thirty
minutes (`1/2` hour) apart, starting at `now`. -/
noncomputable def generateForecast
    (events : List CoffeeIntakeEvent) (now : ℝ) : List ForecastPoint :=
  (List.range 48).map fun (i : ℕ) =>
    let targetTime := now + (i : ℝ) * (1 / 2)
    let d := findDrinkAt events targetTime
    { time := targetTime
      caffeine := calculateCaffeineLevelAt events targetTime
      hasDrink := d.1
      drinkAmount := d.2 }

/-- Minute truncation of a full timestamp (date included), the comparison the
spec describes for the forecast's drink matching. -/
noncomputable def minuteTrunc (t : ℝ) : ℤ :=
  ⌊t * 60⌋

/-- Folding the accumulation loop equals summing the per-event
contributions. -/
lemma foldl_contribution_eq_sum (targetTime : ℝ)
    (events : List CoffeeIntakeEvent) (acc : ℝ) :
    events.foldl
      (fun totalCaffeine event =>
        let timeElapsedHours := targetTime - event.time
        if timeElapsedHours < 0 then totalCaffeine
        else totalCaffeine + event.amount * (0.5 : ℝ) ^ (timeElapsedHours / 5))
      acc
    = acc + (events.map (eventContribution targetTime)).sum := by
  induction events generalizing acc with
  | nil => simp
  | cons e rest ih =>
      simp only [List.foldl_cons, List.map_cons, List.sum_cons, ih,
        eventContribution]
      by_cases h : targetTime - e.time < 0
      · simp [h]
      · simp [h]
        ring

/-- The level function is exactly the sum of per-event contributions. -/
lemma calculateCaffeineLevelAt_eq_sum
    (events : List CoffeeIntakeEvent) (targetTime : ℝ) :
    calculateCaffeineLevelAt events targetTime
      = (events.map (eventContribution targetTime)).sum := by
  unfold calculateCaffeineLevelAt
  rcases events with _ | ⟨e, rest⟩
  · simp
  · simp only [List.isEmpty_cons, if_neg, Bool.false_eq_true, not_false_iff]
    rw [foldl_contribution_eq_sum]
    ring

/-- A past or present event contributes the closed-form decay term. -/
lemma eventContribution_of_le {event : CoffeeIntakeEvent} {t : ℝ}
    (h : event.time ≤ t) :
    eventContribution t event
      = event.amount * (0.5 : ℝ) ^ ((t - event.time) / 5) := by
  unfold eventContribution
  rw [if_neg (not_lt.mpr (sub_nonneg.mpr h))]

/-- `eventContribution_of_le` restated over the event's components, so it
rewrites concrete event literals cleanly. -/
lemma eventContribution_closed (t0 c t : ℝ) (h : t0 ≤ t) :
    eventContribution t ⟨t0, c⟩ = c * (0.5 : ℝ) ^ ((t - t0) / 5) :=
  @eventContribution_of_le ⟨t0, c⟩ t h

/-- `C1`: for an event with dose `C0` at `t0` and a query time `t ≥ t0`, the
residual contribution is exactly `C0 * 0.5 ^ ((t - t0) / 5)`; moreover a
single 95 mg dose at `t0` yields level 95 at `t0`, 47.5 at `t0 + 5` hours
and 23.75 at `t0 + 10` hours. -/
theorem decay_law_and_single_dose
    (event : CoffeeIntakeEvent) (t : ℝ) (h : event.time ≤ t) :
    eventContribution t event
      = event.amount * (0.5 : ℝ) ^ ((t - event.time) / 5)
    ∧ ∀ t0 : ℝ,
        calculateCaffeineLevelAt [⟨t0, 95⟩] t0 = 95
        ∧ calculateCaffeineLevelAt [⟨t0, 95⟩] (t0 + 5) = 47.5
        ∧ calculateCaffeineLevelAt [⟨t0, 95⟩] (t0 + 10) = 23.75 := by
  refine ⟨eventContribution_of_le h, fun t0 => ⟨?_, ?_, ?_⟩⟩ <;>
    rw [calculateCaffeineLevelAt_eq_sum] <;>
    simp only [List.map_cons, List.map_nil, List.sum_cons, List.sum_nil,
      add_zero] <;>
    rw [eventContribution_of_le (by simp; try linarith)]
  · norm_num
  · have h5 : (t0 + 5 - t0) / 5 = (1 : ℝ) := by ring
    rw [h5, Real.rpow_one]; norm_num
  · have h10 : (t0 + 10 - t0) / 5 = ((2 : ℕ) : ℝ) := by push_cast; ring
    rw [h10, Real.rpow_natCast]; norm_num

/-- Witness for `decay_law_and_single_dose` at the event `(0, 95)` and
query time `0`. -/
theorem decay_law_and_single_dose_witness :
    eventContribution 0 ⟨0, 95⟩ = 95 * (0.5 : ℝ) ^ ((0 - 0 : ℝ) / 5)
    ∧ calculateCaffeineLevelAt [⟨0, 95⟩] 0 = 95 := by
  obtain ⟨h1, h2⟩ := decay_law_and_single_dose ⟨0, 95⟩ 0 le_rfl
  exact ⟨h1, (h2 0).1⟩

/-- `C2`: the total level is the sum of per-event contributions, the empty
snapshot yields 0, and two 95 mg doses at `t0` and `t0 + 1` hour give level
`95 * 0.5 ^ (1/5) + 95` at `t0 + 1`. -/
theorem total_level_is_sum (events : List CoffeeIntakeEvent) (t : ℝ) :
    calculateCaffeineLevelAt events t
        = (events.map (eventContribution t)).sum
    ∧ calculateCaffeineLevelAt [] t = 0
    ∧ ∀ t0 : ℝ,
        calculateCaffeineLevelAt [⟨t0, 95⟩, ⟨t0 + 1, 95⟩] (t0 + 1)
          = 95 * (0.5 : ℝ) ^ ((1 : ℝ) / 5) + 95 := by
  refine ⟨calculateCaffeineLevelAt_eq_sum events t, by simp [calculateCaffeineLevelAt], fun t0 => ?_⟩
  rw [calculateCaffeineLevelAt_eq_sum]
  simp only [List.map_cons, List.map_nil, List.sum_cons, List.sum_nil, add_zero]
  rw [eventContribution_of_le (by simp; try linarith)]
  rw [eventContribution_of_le (by simp)]
  simp only
  rw [show (t0 + 1 - t0) / 5 = (1 : ℝ) / 5 by ring,
    show (t0 + 1 - (t0 + 1)) / 5 = (0 : ℝ) by ring, Real.rpow_zero]
  ring

/-- An event strictly after the query time is skipped by the loop. -/
lemma eventContribution_of_future
    (event : CoffeeIntakeEvent) (t : ℝ) (h : t < event.time) :
    eventContribution t event = 0 := by
  unfold eventContribution
  rw [if_pos (by linarith)]

/-- `C3`: an event whose timestamp is strictly after the query time
contributes exactly 0 (never a negative amount); the code skips it with
`continue`, so a future-dated event is not an error condition. -/
theorem future_event_contributes_zero
    (event : CoffeeIntakeEvent) (t : ℝ) (h : t < event.time) :
    eventContribution t event = 0 :=
  eventContribution_of_future event t h

/-- Witness for `future_event_contributes_zero` at the event `(1, 95)` and
query time `0`. -/
theorem future_event_contributes_zero_witness :
    eventContribution 0 ⟨1, 95⟩ = 0 :=
  future_event_contributes_zero ⟨1, 95⟩ 0 (by norm_num)

/-- Each contribution of a non-negative dose is non-negative. -/
lemma eventContribution_nonneg (t : ℝ) (event : CoffeeIntakeEvent)
    (h : 0 ≤ event.amount) : 0 ≤ eventContribution t event := by
  unfold eventContribution
  by_cases hc : t - event.time < 0
  · simp [hc]
  · simp only [hc, if_false]
    exact mul_nonneg h (Real.rpow_nonneg (by norm_num) _)

/-- `C4` counterexample: a snapshot holding the (accepted, unvalidated)
dose `-1` at time `0` yields a strictly negative level at query time `0`,
refuting "the level returned is ≥ 0" over arbitrary snapshots. -/
theorem negative_dose_negative_level :
    calculateCaffeineLevelAt [⟨0, -1⟩] 0 < 0 := by
  rw [calculateCaffeineLevelAt_eq_sum]
  simp only [List.map_cons, List.map_nil, List.sum_cons, List.sum_nil, add_zero]
  rw [eventContribution_of_le (by norm_num)]
  norm_num

/-- `C4` amended: when every dose in the snapshot is non-negative, the level
at any query time is ≥ 0. -/
theorem level_nonneg_of_nonneg_doses
    (events : List CoffeeIntakeEvent) (t : ℝ)
    (h : ∀ e ∈ events, 0 ≤ e.amount) :
    0 ≤ calculateCaffeineLevelAt events t := by
  rw [calculateCaffeineLevelAt_eq_sum]
  apply List.sum_nonneg
  intro x hx
  simp only [List.mem_map] at hx
  obtain ⟨e, he, rfl⟩ := hx
  exact eventContribution_nonneg t e (h e he)

/-- Witness for `level_nonneg_of_nonneg_doses` on a one-event snapshot. -/
theorem level_nonneg_of_nonneg_doses_witness :
    0 ≤ calculateCaffeineLevelAt [⟨0, 2⟩] 3 :=
  level_nonneg_of_nonneg_doses [⟨0, 2⟩] 3
    (by intro e he; rw [List.mem_singleton] at he; subst he; norm_num)

/-- `C5` counterexample: with the accepted negative dose `-1` at time `0`
and a second event at time `10`, the query times `1 ≤ 2` lie strictly
between the two consecutive event timestamps, yet the level strictly
increases from `1` to `2`. -/
theorem level_increase_counterexample :
    ((0 : ℝ) < 1 ∧ (1 : ℝ) ≤ 2 ∧ (2 : ℝ) < 10)
    ∧ calculateCaffeineLevelAt [⟨0, -1⟩, ⟨10, 5⟩] 1
        < calculateCaffeineLevelAt [⟨0, -1⟩, ⟨10, 5⟩] 2 := by
  refine ⟨⟨by norm_num, by norm_num, by norm_num⟩, ?_⟩
  rw [calculateCaffeineLevelAt_eq_sum, calculateCaffeineLevelAt_eq_sum]
  simp only [List.map_cons, List.map_nil, List.sum_cons, List.sum_nil, add_zero]
  rw [eventContribution_closed 0 (-1) 1 (by norm_num),
    eventContribution_closed 0 (-1) 2 (by norm_num),
    eventContribution_of_future ⟨10, 5⟩ 1 (by norm_num),
    eventContribution_of_future ⟨10, 5⟩ 2 (by norm_num)]
  rw [show ((1 : ℝ) - 0) / 5 = 1 / 5 by norm_num,
    show ((2 : ℝ) - 0) / 5 = 2 / 5 by norm_num]
  have hlt : (0.5 : ℝ) ^ ((2 : ℝ) / 5) < (0.5 : ℝ) ^ ((1 : ℝ) / 5) :=
    Real.rpow_lt_rpow_of_exponent_gt (by norm_num) (by norm_num) (by norm_num)
  linarith

/-- `C5` amended: for a snapshot all of whose doses are non-negative, and
query times `t1 ≤ t2` with no event timestamp in `[t1, t2]` (which holds
whenever `t1` and `t2` lie strictly between the same two consecutive event
timestamps), the level at `t2` is at most the level at `t1`. -/
theorem level_nonincreasing_between_doses
    (events : List CoffeeIntakeEvent) (t1 t2 : ℝ)
    (h12 : t1 ≤ t2)
    (hgap : ∀ e ∈ events, e.time < t1 ∨ t2 < e.time)
    (hpos : ∀ e ∈ events, 0 ≤ e.amount) :
    calculateCaffeineLevelAt events t2 ≤ calculateCaffeineLevelAt events t1 := by
  rw [calculateCaffeineLevelAt_eq_sum, calculateCaffeineLevelAt_eq_sum]
  refine List.sum_le_sum ?_
  intro e he
  rcases hgap e he with hlt | hgt
  · rw [eventContribution_of_le (le_of_lt hlt),
      eventContribution_of_le (le_of_lt (lt_of_lt_of_le hlt h12))]
    refine mul_le_mul_of_nonneg_left ?_ (hpos e he)
    exact Real.rpow_le_rpow_of_exponent_ge (by norm_num) (by norm_num)
      (by apply div_le_div_of_nonneg_right _ (by norm_num); linarith)
  · rw [eventContribution_of_future e t1 (lt_of_le_of_lt h12 hgt),
      eventContribution_of_future e t2 hgt]

/-- Witness for `level_nonincreasing_between_doses`: events at times `0`
and `10`, query times `1 ≤ 2`. -/
theorem level_nonincreasing_between_doses_witness :
    calculateCaffeineLevelAt [⟨0, 1⟩, ⟨10, 2⟩] 2
      ≤ calculateCaffeineLevelAt [⟨0, 1⟩, ⟨10, 2⟩] 1 :=
  level_nonincreasing_between_doses [⟨0, 1⟩, ⟨10, 2⟩] 1 2 (by norm_num)
    (by
      intro e he
      simp only [List.mem_cons, List.mem_singleton] at he
      rcases he with rfl | rfl | h
      · left; norm_num
      · right; norm_num
      · exact absurd h (List.not_mem_nil e))
    (by
      intro e he
      simp only [List.mem_cons, List.mem_singleton] at he
      rcases he with rfl | rfl | h
      · norm_num
      · norm_num
      · exact absurd h (List.not_mem_nil e))

/-- The forecast list always has 48 entries. -/
lemma generateForecast_length (events : List CoffeeIntakeEvent) (now : ℝ) :
    (generateForecast events now).length = 48 := by
  simp only [generateForecast, List.length_map, List.length_range]

/-- Closed form of the `i`-th forecast point. -/
lemma generateForecast_get (events : List CoffeeIntakeEvent) (now : ℝ)
    (i : ℕ) (h : i < (generateForecast events now).length) :
    (generateForecast events now).get ⟨i, h⟩
      = { time := now + (i : ℝ) * (1 / 2)
          caffeine := calculateCaffeineLevelAt events (now + (i : ℝ) * (1 / 2))
          hasDrink := (findDrinkAt events (now + (i : ℝ) * (1 / 2))).1
          drinkAmount := (findDrinkAt events (now + (i : ℝ) * (1 / 2))).2 } := by
  simp only [generateForecast, List.get_eq_getElem, List.getElem_map,
    List.getElem_range]

/-- `C6`: the forecast has exactly 48 points; point `i` sits at
`now + i * 30min` (with hours as the unit, `30min = 1/2`); hence
consecutive points are exactly 30 minutes apart and point 0 is at `now`. -/
theorem forecast_length_and_spacing
    (events : List CoffeeIntakeEvent) (now : ℝ) :
    (generateForecast events now).length = 48
    ∧ (∀ (i : ℕ) (h : i < (generateForecast events now).length),
        ((generateForecast events now).get ⟨i, h⟩).time
          = now + (i : ℝ) * (1 / 2))
    ∧ (∀ (i : ℕ) (h1 : i + 1 < (generateForecast events now).length)
        (h0 : i < (generateForecast events now).length),
        ((generateForecast events now).get ⟨i + 1, h1⟩).time
          = ((generateForecast events now).get ⟨i, h0⟩).time + 1 / 2)
    ∧ ∀ h : 0 < (generateForecast events now).length,
        ((generateForecast events now).get ⟨0, h⟩).time = now := by
  refine ⟨generateForecast_length events now, fun i h => ?_, fun i h1 h0 => ?_,
    fun h => ?_⟩
  · rw [generateForecast_get]
  · rw [generateForecast_get, generateForecast_get]
    push_cast
    ring
  · rw [generateForecast_get]
    norm_num

/-- Witness for `forecast_length_and_spacing` at the empty store, `now = 0`,
sample index 3. -/
theorem forecast_length_and_spacing_witness :
    (generateForecast [] 0).length = 48
    ∧ ((generateForecast [] 0).get
          ⟨3, by rw [generateForecast_length]; norm_num⟩).time
        = 0 + (3 : ℝ) * (1 / 2) := by
  obtain ⟨hlen, htime, _, _⟩ := forecast_length_and_spacing [] 0
  exact ⟨hlen, htime 3 (by rw [generateForecast_length]; norm_num)⟩

/-- `C8`: the dedicated current-level function agrees with the general
level-at-time function evaluated at `now` — the two Go functions have
identical bodies once `time.Now()` is made explicit. -/
theorem current_level_refines_level_at
    (events : List CoffeeIntakeEvent) (now : ℝ) :
    calculateCurrentCaffeineLevel events now
      = calculateCaffeineLevelAt events now := rfl

/-- `C10`: appending an event with a non-negative dose (what `AddDrink`
does) never decreases the level at any query time. -/
theorem addDrink_monotone
    (events : List CoffeeIntakeEvent) (now amount t : ℝ)
    (h : 0 ≤ amount) :
    calculateCaffeineLevelAt events t
      ≤ calculateCaffeineLevelAt (addDrink events now amount) t := by
  rw [calculateCaffeineLevelAt_eq_sum, calculateCaffeineLevelAt_eq_sum, addDrink]
  simp only [List.map_append, List.sum_append, List.map_cons, List.map_nil,
    List.sum_cons, List.sum_nil, add_zero]
  have hc : 0 ≤ eventContribution t ⟨now, amount⟩ :=
    eventContribution_nonneg t ⟨now, amount⟩ h
  linarith

/-- Witness for `addDrink_monotone`: one prior event, a 95 mg append. -/
theorem addDrink_monotone_witness :
    calculateCaffeineLevelAt [⟨0, 50⟩] 2
      ≤ calculateCaffeineLevelAt (addDrink [⟨0, 50⟩] 1 95) 2 :=
  addDrink_monotone [⟨0, 50⟩] 1 95 2 (by norm_num)

/-- The drink-matching scan reports a hit exactly when some event's
`Format "15:04"` value equals the target's. -/
lemma findDrinkAt_fst_iff (events : List CoffeeIntakeEvent) (t : ℝ) :
    (findDrinkAt events t).1 = true
      ↔ ∃ e ∈ events, formatHM e.time = formatHM t := by
  induction events with
  | nil => simp [findDrinkAt]
  | cons e rest ih =>
      by_cases h : formatHM e.time = formatHM t
      · simp [findDrinkAt, h]
      · simp only [findDrinkAt, if_neg h, ih, List.mem_cons]
        constructor
        · rintro ⟨x, hx, hfx⟩
          exact ⟨x, Or.inr hx, hfx⟩
        · rintro ⟨x, hx | hx, hfx⟩
          · subst hx; exact absurd hfx h
          · exact ⟨x, hx, hfx⟩

/-- When index `j` matches and every earlier index does not, the scan stops
at `j` (the loop breaks at the first match, in insertion order). -/
lemma findDrinkAt_first_match (events : List CoffeeIntakeEvent) (t : ℝ)
    (j : ℕ) (hj : j < events.length)
    (hmatch : formatHM (events.get ⟨j, hj⟩).time = formatHM t)
    (hbefore : ∀ (k : ℕ) (hk : k < events.length), k < j →
        formatHM (events.get ⟨k, hk⟩).time ≠ formatHM t) :
    findDrinkAt events t = (true, (events.get ⟨j, hj⟩).amount) := by
  induction events generalizing j with
  | nil => exact absurd hj (by simp)
  | cons e rest ih =>
      cases j with
      | zero =>
          simp only [List.get] at hmatch
          simp [findDrinkAt, hmatch]
      | succ j' =>
          have hne : formatHM e.time ≠ formatHM t := by
            have := hbefore 0 (by simp) (Nat.succ_pos j')
            simpa using this
          have hj' : j' < rest.length := Nat.lt_of_succ_lt_succ hj
          simp only [findDrinkAt, if_neg hne]
          have hm' : formatHM (rest.get ⟨j', hj'⟩).time = formatHM t := by
            simpa using hmatch
          have hb' : ∀ (k : ℕ) (hk : k < rest.length), k < j' →
              formatHM (rest.get ⟨k, hk⟩).time ≠ formatHM t := by
            intro k hk hkj
            have := hbefore (k + 1) (Nat.succ_lt_succ hk) (Nat.succ_lt_succ hkj)
            simpa using this
          simpa using ih j' hj' hm' hb'

/-- `C7` counterexample: with the single event at time `0` (midnight) and
`now = 24` (midnight one day later), forecast point 0 samples time `24`;
its hour-and-minute-of-day comparison matches (`00:00 = 00:00`) so the
point is flagged `hasDrink = true`, yet no event's minute-truncated
timestamp equals the sample's minute-truncated timestamp
(`⌊0·60⌋ = 0 ≠ 1440 = ⌊24·60⌋`), refuting the claimed "if and only if". -/
theorem forecast_drink_flag_counterexample :
    ((generateForecast [⟨0, 95⟩] 24).get
        ⟨0, by rw [generateForecast_length]; norm_num⟩).hasDrink = true
    ∧ ((generateForecast [⟨0, 95⟩] 24).get
        ⟨0, by rw [generateForecast_length]; norm_num⟩).time = 24
    ∧ minuteTrunc (0 : ℝ) ≠ minuteTrunc (24 : ℝ) := by
  have h24 : formatHM (24 : ℝ) = 0 := by
    unfold formatHM
    rw [show ((24 : ℝ) * 60) = ((1440 : ℤ) : ℝ) by norm_num, Int.floor_intCast]
    decide
  have h0 : formatHM (0 : ℝ) = 0 := by
    unfold formatHM
    rw [show ((0 : ℝ) * 60) = ((0 : ℤ) : ℝ) by norm_num, Int.floor_intCast]
    decide
  refine ⟨?_, ?_, ?_⟩
  · rw [generateForecast_get]
    simp only [Nat.cast_zero, zero_mul, add_zero]
    simp [findDrinkAt, h0, h24]
  · rw [generateForecast_get]
    norm_num
  · unfold minuteTrunc
    rw [show ((0 : ℝ) * 60) = ((0 : ℤ) : ℝ) by norm_num, Int.floor_intCast,
      show ((24 : ℝ) * 60) = ((1440 : ℤ) : ℝ) by norm_num, Int.floor_intCast]
    decide

/-- `C7` amended: forecast point `i` is flagged `hasDrink = true` exactly
when some event's hour-and-minute-of-day (Go's `Format "15:04"`, i.e. the
minute-truncated timestamp taken modulo 24 hours) equals that of the sample
time — not the full minute-truncated timestamp — and when index `j` is the
first such match in insertion order, the point carries that event's
amount. -/
theorem forecast_drink_flag (events : List CoffeeIntakeEvent) (now : ℝ)
    (i : ℕ) (h : i < (generateForecast events now).length) :
    (((generateForecast events now).get ⟨i, h⟩).hasDrink = true
      ↔ ∃ e ∈ events,
          formatHM e.time
            = formatHM (((generateForecast events now).get ⟨i, h⟩).time))
    ∧ ∀ (j : ℕ) (hj : j < events.length),
        formatHM (events.get ⟨j, hj⟩).time
            = formatHM (((generateForecast events now).get ⟨i, h⟩).time) →
        (∀ (k : ℕ) (hk : k < events.length), k < j →
            formatHM (events.get ⟨k, hk⟩).time
              ≠ formatHM (((generateForecast events now).get ⟨i, h⟩).time)) →
        ((generateForecast events now).get ⟨i, h⟩).hasDrink = true
        ∧ ((generateForecast events now).get ⟨i, h⟩).drinkAmount
            = (events.get ⟨j, hj⟩).amount := by
  rw [generateForecast_get]
  refine ⟨findDrinkAt_fst_iff events _, ?_⟩
  intro j hj hm hb
  have hfd := findDrinkAt_first_match events (now + (i : ℝ) * (1 / 2)) j hj hm hb
  rw [hfd]
  exact ⟨rfl, rfl⟩

/-- Witness for `forecast_drink_flag`: one event at time `0`, `now = 0`,
sample index 0. -/
theorem forecast_drink_flag_witness :
    ((generateForecast [⟨0, 95⟩] 0).get
        ⟨0, by rw [generateForecast_length]; norm_num⟩).hasDrink = true := by
  have h := forecast_drink_flag [⟨0, 95⟩] 0 0
    (by rw [generateForecast_length]; norm_num)
  refine h.1.mpr ⟨⟨0, 95⟩, by simp, ?_⟩
  have ht : ((generateForecast [⟨0, 95⟩] 0).get
      ⟨0, by rw [generateForecast_length]; norm_num⟩).time = 0 := by
    rw [generateForecast_get]
    norm_num
  rw [ht]
